import Mathlib

/-!
Shallow embedding of the second_brain retrieval-orchestration backend
(branch classifier, retrieval router, recall orchestrator rerank arbitration,
voyage rerank service, schema manager, migration runner), translated from
`src/backend/src/second_brain/`.  Python floats are modelled as rationals,
Python dicts as insertion-ordered association lists.
-/

namespace SecondBrain

/-- Python dict lookup `d.get(k)`: first binding of key `k`, if any. -/
def dget {α : Type} (d : List (String × α)) (k : String) : Option α :=
  (d.find? (fun kv => kv.1 == k)).map (·.2)

/-- Python dict assignment `d[k] = v`: update in place if present, else append. -/
def dset {α : Type} : List (String × α) → String → α → List (String × α)
  | [], k, v => [(k, v)]
  | (k', v') :: rest, k, v =>
    if k' == k then (k, v) :: rest else (k', v') :: dset rest k v

/-- Python `d.get(k, default)` for boolean feature-flag dicts. -/
def bget (d : List (String × Bool)) (k : String) (dflt : Bool) : Bool :=
  (dget d k).getD dflt

/-- Membership of a key in a Python dict (`k in d`). -/
def dmem {α : Type} (d : List (String × α)) (k : String) : Bool :=
  (dget d k).isSome

/-! ## Contracts (`contracts/context_packet.py`) -/

/-- `ContextCandidate`: a single retrieval candidate.  The `metadata` dict is
modelled with string values; the timestamp-free subset suffices here. -/
structure ContextCandidate where
  id : String
  content : String
  source : String
  confidence : ℚ
  metadata : List (String × String) := []
  deriving DecidableEq, Repr

/-- `ConfidenceSummary`: aggregated confidence assessment. -/
structure ConfidenceSummary where
  top_confidence : ℚ
  candidate_count : ℕ
  threshold_met : Bool
  branch : String
  deriving DecidableEq, Repr

/-- `ContextPacket`: complete retrieval result envelope (the wall-clock
`timestamp` field is omitted from the model). -/
structure ContextPacket where
  candidates : List ContextCandidate
  summary : ConfidenceSummary
  provider : String
  rerank_applied : Bool
  deriving DecidableEq, Repr

/-- `NextAction`: explicit actionability indicator. -/
structure NextAction where
  action : String
  reason : String
  branch_code : String
  suggestion : Option String := none
  deriving DecidableEq, Repr

/-- Retrieval mode: `Literal["fast", "accurate", "conversation"]`. -/
inductive Mode where
  | fast
  | accurate
  | conversation
  deriving DecidableEq, Repr

/-- `RetrievalRequest`: request to the retrieval module. -/
structure RetrievalRequest where
  query : String
  mode : Mode := .conversation
  top_k : ℕ := 5
  threshold : ℚ := 0.6
  provider_override : Option String := none
  deriving DecidableEq, Repr

/-! ## Branch classifier (`orchestration/fallbacks.py`) -/

namespace BranchCodes

def EMPTY_SET : String := "EMPTY_SET"
def LOW_CONFIDENCE : String := "LOW_CONFIDENCE"
def CHANNEL_MISMATCH : String := "CHANNEL_MISMATCH"
def RERANK_BYPASSED : String := "RERANK_BYPASSED"
def SUCCESS : String := "SUCCESS"

end BranchCodes

namespace FallbackEmitter

/-- `FallbackEmitter.emit_empty_set`. -/
def emit_empty_set (provider : String := "unknown") : ContextPacket × NextAction :=
  ({ candidates := []
     summary :=
       { top_confidence := 0
         candidate_count := 0
         threshold_met := false
         branch := BranchCodes.EMPTY_SET }
     provider := provider
     rerank_applied := false },
   { action := "fallback"
     reason := "No context candidates retrieved from any provider"
     branch_code := BranchCodes.EMPTY_SET
     suggestion := some "Ask user to rephrase query or provide more context" })

/-- `FallbackEmitter.emit_low_confidence`. -/
def emit_low_confidence (candidates : List ContextCandidate)
    (top_confidence threshold : ℚ) (provider : String := "unknown") :
    ContextPacket × NextAction :=
  ({ candidates := candidates
     summary :=
       { top_confidence := top_confidence
         candidate_count := candidates.length
         threshold_met := false
         branch := BranchCodes.LOW_CONFIDENCE }
     provider := provider
     rerank_applied := false },
   { action := "clarify"
     reason := "Top confidence " ++ toString top_confidence ++
       " below threshold " ++ toString threshold
     branch_code := BranchCodes.LOW_CONFIDENCE
     suggestion := some "Request clarification on query intent or narrow scope" })

/-- `FallbackEmitter.emit_channel_mismatch`. -/
def emit_channel_mismatch (candidates : List ContextCandidate)
    (expected_channel : String) (provider : String := "unknown") :
    ContextPacket × NextAction :=
  ({ candidates := candidates
     summary :=
       { top_confidence := ((candidates.head?).map (·.confidence)).getD 0
         candidate_count := candidates.length
         threshold_met := false
         branch := BranchCodes.CHANNEL_MISMATCH }
     provider := provider
     rerank_applied := false },
   { action := "escalate"
     reason := "Retrieved context does not match expected channel: " ++ expected_channel
     branch_code := BranchCodes.CHANNEL_MISMATCH
     suggestion := some "Escalate to human or trigger intent reclassification" })

/-- `FallbackEmitter.emit_rerank_bypassed`. -/
def emit_rerank_bypassed (candidates : List ContextCandidate)
    (provider : String := "mem0") : ContextPacket × NextAction :=
  let top_confidence : ℚ := ((candidates.head?).map (·.confidence)).getD 0
  ({ candidates := candidates
     summary :=
       { top_confidence := top_confidence
         candidate_count := candidates.length
         threshold_met := decide ((0.6 : ℚ) ≤ top_confidence)
         branch := BranchCodes.RERANK_BYPASSED }
     provider := provider
     rerank_applied := true },
   { action := "proceed"
     reason := "Provider-native rerank applied, external rerank bypassed per policy"
     branch_code := BranchCodes.RERANK_BYPASSED
     suggestion := none })

/-- `FallbackEmitter.emit_success`. -/
def emit_success (candidates : List ContextCandidate)
    (provider : String := "unknown") (rerank_applied : Bool := false) :
    ContextPacket × NextAction :=
  let top_confidence : ℚ := ((candidates.head?).map (·.confidence)).getD 0
  ({ candidates := candidates
     summary :=
       { top_confidence := top_confidence
         candidate_count := candidates.length
         threshold_met := true
         branch := BranchCodes.SUCCESS }
     provider := provider
     rerank_applied := rerank_applied },
   { action := "proceed"
     reason := "Retrieved " ++ toString candidates.length ++ " high-confidence candidates"
     branch_code := BranchCodes.SUCCESS
     suggestion := none })

end FallbackEmitter

/-- `determine_branch`: determine appropriate branch and emit corresponding
output (pure dispatch over the emitters, in source order). -/
def determine_branch (candidates : List ContextCandidate)
    (threshold : ℚ := 0.6) (rerank_bypassed : Bool := false)
    (provider : String := "unknown") : ContextPacket × NextAction :=
  match candidates with
  | [] => FallbackEmitter.emit_empty_set provider
  | c :: _ =>
    if c.confidence < threshold then
      FallbackEmitter.emit_low_confidence candidates c.confidence threshold provider
    else if rerank_bypassed && provider == "mem0" then
      FallbackEmitter.emit_rerank_bypassed candidates provider
    else
      FallbackEmitter.emit_success candidates provider rerank_bypassed

/-- `RecallOrchestrator._force_branch_output`: force a specific branch output
for validation testing (dispatches to the emitters; unknown codes fall back
to `determine_branch`). -/
def force_branch_output (candidates : List ContextCandidate) (force_branch : String)
    (provider : String) (skip_external_rerank : Bool) (threshold : ℚ) :
    ContextPacket × NextAction :=
  if force_branch == BranchCodes.EMPTY_SET then
    FallbackEmitter.emit_empty_set provider
  else if force_branch == BranchCodes.LOW_CONFIDENCE then
    let low_conf_candidates := candidates.map (fun c => { c with confidence := 0.4 })
    FallbackEmitter.emit_low_confidence low_conf_candidates 0.4 threshold provider
  else if force_branch == BranchCodes.CHANNEL_MISMATCH then
    FallbackEmitter.emit_channel_mismatch candidates "test_channel" provider
  else if force_branch == BranchCodes.RERANK_BYPASSED then
    FallbackEmitter.emit_rerank_bypassed
      (if candidates.isEmpty then
        [{ id := "forced", content := "Forced rerank bypass", source := provider,
           confidence := 0.85, metadata := [] }]
       else candidates) provider
  else if force_branch == BranchCodes.SUCCESS then
    FallbackEmitter.emit_success
      (if candidates.isEmpty then
        [{ id := "forced", content := "Forced success", source := provider,
           confidence := 0.9, metadata := [] }]
       else candidates) provider skip_external_rerank
  else
    determine_branch candidates threshold skip_external_rerank provider

/-! ## Retrieval router (`orchestration/retrieval_router.py`) -/

namespace ProviderStatus

def AVAILABLE : String := "available"
def UNAVAILABLE : String := "unavailable"
def DEGRADED : String := "degraded"

end ProviderStatus

/-- `_normalized_provider_status`: fill statuses missing from the snapshot as
"available" for every enabled provider; explicit statuses are preserved. -/
def normalized_provider_status (enabled_providers : List String)
    (provider_status : List (String × String)) : List (String × String) :=
  enabled_providers.foldl
    (fun normalized p =>
      if dmem normalized p then normalized
      else normalized ++ [(p, ProviderStatus.AVAILABLE)])
    provider_status

/-- `_is_provider_eligible`: the provider is in the enabled list and its
status (defaulting to "unavailable") is "available" or "degraded". -/
def is_provider_eligible (provider : String) (enabled_providers : List String)
    (provider_status : List (String × String)) : Bool :=
  enabled_providers.contains provider &&
    [ProviderStatus.AVAILABLE, ProviderStatus.DEGRADED].contains
      ((dget provider_status provider).getD ProviderStatus.UNAVAILABLE)

/-- The route-options dict `{"skip_external_rerank": bool}`. -/
structure RouteOptions where
  skip_external_rerank : Bool
  deriving DecidableEq, Repr

/-- Tail of `RouteDecision.select_route`: fallback to first eligible provider
(degraded accepted), else `("none", {skip_external_rerank: false})`. -/
def select_route_fallback (available_providers : List String)
    (provider_status : List (String × String)) : String × RouteOptions :=
  match available_providers.find?
      (fun provider => is_provider_eligible provider available_providers provider_status) with
  | some provider => (provider, ⟨provider == "mem0"⟩)
  | none => ("none", ⟨false⟩)

/-- `RouteDecision.select_route`: deterministic mode-based provider selection. -/
def select_route (mode : Mode) (available_providers : List String)
    (provider_status : List (String × String)) : String × RouteOptions :=
  if available_providers.isEmpty then ("none", ⟨false⟩)
  else
    match mode with
    | .conversation =>
      if available_providers.contains "mem0" &&
          is_provider_eligible "mem0" available_providers provider_status &&
          ((dget provider_status "mem0").getD ProviderStatus.AVAILABLE ==
            ProviderStatus.AVAILABLE) then
        ("mem0", ⟨true⟩)
      else if available_providers.contains "supabase" &&
          is_provider_eligible "supabase" available_providers provider_status &&
          ((dget provider_status "supabase").getD ProviderStatus.AVAILABLE ==
            ProviderStatus.AVAILABLE) then
        ("supabase", ⟨false⟩)
      else
        select_route_fallback available_providers provider_status
    | .fast =>
      match ["mem0", "supabase", "graphiti"].find? (fun provider =>
          available_providers.contains provider &&
          is_provider_eligible provider available_providers provider_status &&
          ((dget provider_status provider).getD ProviderStatus.AVAILABLE ==
            ProviderStatus.AVAILABLE)) with
      | some provider => (provider, ⟨provider == "mem0"⟩)
      | none => select_route_fallback available_providers provider_status
    | .accurate =>
      match available_providers.find? (fun provider =>
          is_provider_eligible provider available_providers provider_status &&
          ((dget provider_status provider).getD ProviderStatus.AVAILABLE ==
            ProviderStatus.AVAILABLE)) with
      | some provider => (provider, ⟨provider == "mem0"⟩)
      | none => select_route_fallback available_providers provider_status

/-- `RouteDecision.check_feature_flags`: providers enabled via feature flags
(graphiti opt-in; mem0 and supabase default-enabled). -/
def check_feature_flags (feature_flags : List (String × Bool)) : List String :=
  (if bget feature_flags "graphiti_enabled" false then ["graphiti"] else []) ++
  (if bget feature_flags "mem0_enabled" true then ["mem0"] else []) ++
  (if bget feature_flags "supabase_enabled" true then ["supabase"] else [])

/-- `route_retrieval`: honor a provider override only when it is eligible and
its normalized status is exactly "available"; otherwise fall through to
`select_route`.  (Python also treats an empty-string override as absent.) -/
def route_retrieval (request : RetrievalRequest)
    (provider_status : List (String × String) := [])
    (feature_flags : List (String × Bool) := []) : String × RouteOptions :=
  let enabled_providers := check_feature_flags feature_flags
  let normalized_status := normalized_provider_status enabled_providers provider_status
  match request.provider_override with
  | some ov =>
    if !(ov == "") &&
        is_provider_eligible ov enabled_providers normalized_status &&
        ((dget normalized_status ov).getD ProviderStatus.AVAILABLE ==
          ProviderStatus.AVAILABLE) then
      (ov, ⟨ov == "mem0"⟩)
    else
      select_route request.mode enabled_providers normalized_status
  | none => select_route request.mode enabled_providers normalized_status

/-! ## Schema manager (`services/schema_manager.py`) -/

/-- `MigrationInfo`: expected migration information from local files. -/
structure MigrationInfo where
  version : ℕ
  filename : String
  checksum : String
  deriving DecidableEq, Repr

/-- `MigrationRecord`: migration information stored in the database (the
wall-clock `applied_at` field is omitted from the model). -/
structure MigrationRecord where
  version : ℕ
  filename : String
  checksum : String
  deriving DecidableEq, Repr

/-- `drift_type ∈ {"modified", "missing", "unexpected"}`. -/
inductive DriftType where
  | modified
  | missing
  | unexpected
  deriving DecidableEq, Repr

/-- `DriftItem`: a detected schema drift item. -/
structure DriftItem where
  version : ℕ
  filename : String
  drift_type : DriftType
  expected_checksum : Option String := none
  actual_checksum : Option String := none
  message : String
  deriving DecidableEq, Repr

/-- `SchemaError` (code and message; the context dict is omitted). -/
structure SchemaError where
  message : String
  code : String
  deriving DecidableEq, Repr

/-- Lookup in a version-keyed Python dict. -/
def vget {α : Type} : List (ℕ × α) → ℕ → Option α
  | [], _ => none
  | kv :: rest, k => if kv.1 == k then some kv.2 else vget rest k

/-- Python dict assignment for version-keyed dicts: update the existing
binding in place, else append. -/
def vset {α : Type} : List (ℕ × α) → ℕ → α → List (ℕ × α)
  | [], k, v => [(k, v)]
  | kv :: rest, k, v =>
    if kv.1 == k then (k, v) :: rest else kv :: vset rest k v

/-- `{x.version: x for x in l}`: insertion-ordered dict built by a fold
(later duplicates overwrite in place, as in Python). -/
def toVersionDict {α : Type} (key : α → ℕ) (l : List α) : List (ℕ × α) :=
  l.foldl (fun d x => vset d (key x) x) []

/-- The "modified" drift item built by `detect_drift`. -/
def modifiedItem (e : MigrationInfo) (r : MigrationRecord) : DriftItem :=
  { version := e.version
    filename := e.filename
    drift_type := .modified
    expected_checksum := some e.checksum
    actual_checksum := some r.checksum
    message := "Migration " ++ e.filename ++ " checksum differs. Expected: " ++
      e.checksum ++ ", found in DB: " ++ r.checksum }

/-- The "unexpected" drift item built by `detect_drift`. -/
def unexpectedItem (r : MigrationRecord) : DriftItem :=
  { version := r.version
    filename := r.filename
    drift_type := .unexpected
    expected_checksum := none
    actual_checksum := some r.checksum
    message := "Migration " ++ r.filename ++ " found in schema_versions table " ++
      "but no corresponding file in migrations directory" }

/-- The "missing" (pending) drift item built by `detect_drift`. -/
def missingItem (e : MigrationInfo) : DriftItem :=
  { version := e.version
    filename := e.filename
    drift_type := .missing
    expected_checksum := some e.checksum
    actual_checksum := none
    message := "Migration " ++ e.filename ++ " exists in migrations directory " ++
      "but not found in schema_versions table (pending migration)" }

/-- The per-entry check of `detect_drift`'s first loop: a "modified" item for
an expected migration also present in the applied dict with a differing
checksum. -/
def driftModifiedFn (applied_by_version : List (ℕ × MigrationRecord))
    (e : MigrationInfo) : Option DriftItem :=
  match vget applied_by_version e.version with
  | some r => if e.checksum ≠ r.checksum then some (modifiedItem e r) else none
  | none => none

/-- The per-entry check of `detect_drift`'s second loop: an "unexpected" item
for an applied record with no matching expected file. -/
def driftUnexpectedFn (expected_by_version : List (ℕ × MigrationInfo))
    (r : MigrationRecord) : Option DriftItem :=
  match vget expected_by_version r.version with
  | some _ => none
  | none => some (unexpectedItem r)

/-- The per-entry check of `detect_drift`'s third loop: a "missing" (pending)
item for an expected migration with no applied record. -/
def driftMissingFn (applied_by_version : List (ℕ × MigrationRecord))
    (e : MigrationInfo) : Option DriftItem :=
  match vget applied_by_version e.version with
  | some _ => none
  | none => some (missingItem e)

/-- `SchemaManager.detect_drift`: compare applied vs expected through the two
version-keyed dicts, returning modified, then unexpected, then missing items
(in source order). -/
def detect_drift (expected : List MigrationInfo) (applied : List MigrationRecord) :
    List DriftItem :=
  let applied_by_version := toVersionDict (·.version) applied
  let expected_by_version := toVersionDict (·.version) expected
  let modified := expected_by_version.filterMap
    (fun ve => driftModifiedFn applied_by_version ve.2)
  let unexpected := applied_by_version.filterMap
    (fun vr => driftUnexpectedFn expected_by_version vr.2)
  let missing := expected_by_version.filterMap
    (fun ve => driftMissingFn applied_by_version ve.2)
  modified ++ unexpected ++ missing

/-- `SchemaManager.validate_schema_integrity`, parameterized by the scanned
expected migrations (the Python method calls `scan_migrations()` itself; the
claim assumes the scan succeeds and produces `expected`).  Raises
SchemaError(SCHEMA_DRIFT) iff any "modified" or "unexpected" drift exists. -/
def validate_schema_integrity (expected : List MigrationInfo)
    (applied : List MigrationRecord) : Except SchemaError Unit :=
  let drift_items := detect_drift expected applied
  let critical_items := drift_items.filter (fun i =>
    i.drift_type == DriftType.modified || i.drift_type == DriftType.unexpected)
  if critical_items.isEmpty then Except.ok ()
  else
    Except.error
      { message := "Schema drift detected: " ++ toString critical_items.length ++
          " issue(s)"
        code := "SCHEMA_DRIFT" }

/-! ## Migration runner (`services/migration_runner.py`) -/

/-- `MigrationResult`. -/
structure MigrationResult where
  success : Bool
  applied : List MigrationInfo := []
  rolled_back : List MigrationInfo := []
  dry_run : Bool := false
  error : Option String := none
  pending_count : ℕ := 0
  deriving DecidableEq, Repr

/-- Observable effects of a `MigrationExecutor` during one `apply_pending`
run: versions whose forward SQL was executed, migrations recorded via
`record_migration`, and whether the advisory lock was released. -/
structure ExecTrace where
  executed_versions : List ℕ := []
  recorded : List MigrationInfo := []
  lock_released : Bool := false
  deriving DecidableEq, Repr

/-- Abstract `MigrationExecutor` behavior: whether `acquire_advisory_lock`
succeeds, the records returned by `get_applied_migrations`, and which
migrations' forward SQL raises in `execute_sql`. -/
structure Executor where
  lock_ok : Bool
  applied : List MigrationRecord
  exec_fails : MigrationInfo → Bool

/-- `MigrationRunner.get_pending`: expected migrations with no applied record,
in scan (version) order. -/
def get_pending (expected : List MigrationInfo) (applied : List MigrationRecord) :
    List MigrationInfo :=
  expected.filter (fun m => !(applied.any (fun r => r.version == m.version)))

/-- The per-migration loop of `apply_pending`: execute each pending
migration's forward SQL in order; at the first failure return a partial
result (already-recorded migrations are kept, nothing is rolled back, later
migrations are not executed); otherwise record it and continue. -/
def apply_pending_loop (exec_fails : MigrationInfo → Bool) (total_pending : ℕ) :
    List MigrationInfo → List MigrationInfo → ExecTrace →
      MigrationResult × ExecTrace
  | [], applied_list, tr =>
    ({ success := true, applied := applied_list, pending_count := 0 }, tr)
  | m :: rest, applied_list, tr =>
    let tr' : ExecTrace :=
      { tr with executed_versions := tr.executed_versions ++ [m.version] }
    if exec_fails m then
      ({ success := false
         applied := applied_list
         error := some ("Migration " ++ m.filename ++ " failed")
         pending_count := total_pending - applied_list.length }, tr')
    else
      apply_pending_loop exec_fails total_pending rest (applied_list ++ [m])
        { tr' with recorded := tr'.recorded ++ [m] }

/-- `MigrationRunner.apply_pending`: dry-run short-circuits; otherwise acquire
the advisory lock (failure returns a non-raising failure result), validate
schema integrity (a SchemaError propagates), compute pending migrations and
run the loop; the lock is always released in the `finally` once acquired. -/
def apply_pending (expected : List MigrationInfo) (executor : Executor)
    (dry_run : Bool := false) :
    Except SchemaError MigrationResult × ExecTrace :=
  if dry_run then
    let pending := get_pending expected executor.applied
    (Except.ok { success := true, applied := pending, dry_run := true,
                 pending_count := pending.length }, {})
  else if !executor.lock_ok then
    (Except.ok
      { success := false
        error := some
          "Could not acquire migration lock. Another migration may be running." },
     {})
  else
    match validate_schema_integrity expected executor.applied with
    | Except.error err => (Except.error err, { lock_released := true })
    | Except.ok _ =>
      let pending := get_pending expected executor.applied
      if pending.isEmpty then
        (Except.ok { success := true, pending_count := 0 },
         { lock_released := true })
      else
        let out := apply_pending_loop executor.exec_fails pending.length pending [] {}
        (Except.ok out.1, { out.2 with lock_released := true })

/-! ## Voyage rerank service (`services/voyage.py`) -/

/-- Python `s.split()`: split on whitespace, dropping empty pieces. -/
def pySplitWs (s : String) : List String :=
  (s.split Char.isWhitespace).filter (fun t => !(t == ""))

/-- `VoyageRerankService` configuration.  `real_rerank_result` stands for the
outcome of `_real_rerank` (`none` models every failure path: client
unavailable, API exception, empty results); it is consulted only when
`use_real_rerank` is true. -/
structure VoyageRerankService where
  enabled : Bool := true
  model : String := "rerank-2"
  use_real_rerank : Bool := false
  real_rerank_result : Option (List ContextCandidate) := none

/-- The per-candidate scoring step of `_mock_rerank`'s loop: the adjusted
confidence (`min 1 (conf + 0.05 × overlap)`, overlap counting the distinct
query terms present in the content) paired with the new candidate object. -/
def mock_score (query_terms : List String) (candidate : ContextCandidate) :
    ℚ × ContextCandidate :=
  let content_terms := pySplitWs candidate.content.toLower
  let overlap := ((query_terms.dedup).filter
    (fun t => content_terms.contains t)).length
  let adjusted_confidence :=
    min 1 (candidate.confidence + (overlap : ℚ) * 0.05)
  (adjusted_confidence,
   { candidate with
      confidence := adjusted_confidence
      metadata := dset candidate.metadata "rerank_adjusted" "True" })

/-- `VoyageRerankService._mock_rerank`: score every candidate, stable-sort
descending by adjusted confidence, truncate to `top_k`.  New candidate
objects are built; inputs are not mutated. -/
def mock_rerank (query : String) (candidates : List ContextCandidate)
    (top_k : ℕ) : List ContextCandidate :=
  let query_terms := pySplitWs query.toLower
  let scored := candidates.map (mock_score query_terms)
  ((scored.mergeSort (fun a b => decide (b.1 ≤ a.1))).take top_k).map (·.2)

/-- `VoyageRerankService.rerank`: bypass (rerank_type "none") when disabled,
no candidates, or a single candidate; otherwise real rerank when enabled
(falling back to the mock on failure), else the deterministic mock. -/
def rerank (svc : VoyageRerankService) (query : String)
    (candidates : List ContextCandidate) (top_k : ℕ := 5) :
    List ContextCandidate × List (String × String) :=
  let metadata : List (String × String) :=
    [("rerank_type", "none"), ("rerank_model", svc.model)]
  if !svc.enabled || candidates.isEmpty then
    (candidates,
     dset (dset metadata "rerank_type" "none") "bypass_reason"
       (if !svc.enabled then "disabled" else "no_candidates"))
  else if candidates.length == 1 then
    (candidates,
     dset (dset metadata "rerank_type" "none") "bypass_reason" "single_candidate")
  else if svc.use_real_rerank then
    match svc.real_rerank_result with
    | some real_result =>
      (real_result,
       dset (dset metadata "rerank_type" "external") "real_rerank" "True")
    | none =>
      (mock_rerank query candidates top_k,
       dset (dset metadata "rerank_type" "external") "real_rerank" "False")
  else
    (mock_rerank query candidates top_k,
     dset (dset metadata "rerank_type" "external") "real_rerank" "False")

/-! ## Recall orchestrator rerank arbitration (`agents/recall.py`) -/

/-- Step 3 of `RecallOrchestrator.run`: apply the rerank service unless
`skip_external_rerank` is set, the candidate list is empty, or the
`external_rerank_enabled` feature flag (default true) is off.  The skip and
disabled-flag arms record `rerank_bypass_reason`; the final (empty-candidate)
arm leaves the initial metadata untouched. -/
def orchestrator_rerank_step (svc : VoyageRerankService)
    (request : RetrievalRequest) (skip_external_rerank : Bool)
    (candidates : List ContextCandidate)
    (feature_flags : List (String × Bool)) :
    List ContextCandidate × List (String × String) :=
  let external_rerank_enabled := bget feature_flags "external_rerank_enabled" true
  let rerank_metadata : List (String × String) := [("rerank_type", "none")]
  if !skip_external_rerank && !candidates.isEmpty && external_rerank_enabled then
    rerank svc request.query candidates request.top_k
  else if skip_external_rerank then
    (candidates,
     dset (dset rerank_metadata "rerank_type" "provider-native")
       "rerank_bypass_reason" "mem0-default-policy")
  else if !external_rerank_enabled && !candidates.isEmpty then
    (candidates,
     dset (dset rerank_metadata "rerank_type" "none")
       "rerank_bypass_reason" "external_rerank_disabled")
  else
    (candidates, rerank_metadata)

/-- The rerank-related fields assembled by
`RecallOrchestrator._build_routing_metadata`. -/
structure RoutingMetadata where
  selected_provider : String
  mode : Mode
  skip_external_rerank : Bool
  rerank_type : String
  rerank_bypass_reason : Option String
  deriving DecidableEq, Repr

/-- `RecallOrchestrator._build_routing_metadata` (rerank-relevant fields):
`rerank_type` defaults to "none", `rerank_bypass_reason` is None (null) when
the key is absent from the rerank metadata. -/
def build_routing_metadata (provider : String) (mode : Mode)
    (route_options_skip_rerank : Bool)
    (rerank_metadata : List (String × String)) : RoutingMetadata :=
  { selected_provider := provider
    mode := mode
    skip_external_rerank := route_options_skip_rerank
    rerank_type := (dget rerank_metadata "rerank_type").getD "none"
    rerank_bypass_reason := dget rerank_metadata "rerank_bypass_reason" }

/-- Concrete sample candidate used by witness theorems. -/
def candAlphaX : ContextCandidate :=
  { id := "a", content := "alpha x", source := "s", confidence := 0.5, metadata := [] }

/-- Concrete sample candidate used by witness theorems. -/
def candAlphaBetaY : ContextCandidate :=
  { id := "b", content := "alpha beta y", source := "s", confidence := 0.5, metadata := [] }

/-! ### Pairing helper lemmas: each emitter pairs `branch_code` with `branch` -/

lemma pairing_empty_set (p : String) :
    (FallbackEmitter.emit_empty_set p).2.branch_code =
      (FallbackEmitter.emit_empty_set p).1.summary.branch := rfl

lemma pairing_low_confidence (cs : List ContextCandidate) (t th : ℚ) (p : String) :
    (FallbackEmitter.emit_low_confidence cs t th p).2.branch_code =
      (FallbackEmitter.emit_low_confidence cs t th p).1.summary.branch := rfl

lemma pairing_channel_mismatch (cs : List ContextCandidate) (ch p : String) :
    (FallbackEmitter.emit_channel_mismatch cs ch p).2.branch_code =
      (FallbackEmitter.emit_channel_mismatch cs ch p).1.summary.branch := rfl

lemma pairing_rerank_bypassed (cs : List ContextCandidate) (p : String) :
    (FallbackEmitter.emit_rerank_bypassed cs p).2.branch_code =
      (FallbackEmitter.emit_rerank_bypassed cs p).1.summary.branch := rfl

lemma pairing_success (cs : List ContextCandidate) (p : String) (ra : Bool) :
    (FallbackEmitter.emit_success cs p ra).2.branch_code =
      (FallbackEmitter.emit_success cs p ra).1.summary.branch := rfl

lemma pairing_determine_branch (cs : List ContextCandidate) (th : ℚ)
    (rb : Bool) (p : String) :
    (determine_branch cs th rb p).2.branch_code =
      (determine_branch cs th rb p).1.summary.branch := by
  cases cs with
  | nil => rfl
  | cons c rest =>
    simp only [determine_branch]
    split
    · exact pairing_low_confidence _ _ _ _
    · split
      · exact pairing_rerank_bypassed _ _
      · exact pairing_success _ _ _

lemma pairing_force_branch_output (cs : List ContextCandidate) (fb p : String)
    (sk : Bool) (th : ℚ) :
    (force_branch_output cs fb p sk th).2.branch_code =
      (force_branch_output cs fb p sk th).1.summary.branch := by
  simp only [force_branch_output]
  split
  · exact pairing_empty_set _
  · split
    · exact pairing_low_confidence _ _ _ _
    · split
      · exact pairing_channel_mismatch _ _ _
      · split
        · exact pairing_rerank_bypassed _ _
        · split
          · exact pairing_success _ _ _
          · exact pairing_determine_branch _ _ _ _

/-! ## Claim theorems for the branch classifier -/

/-- C1: for every non-empty candidate list whose top candidate confidence is
strictly below the threshold, `determine_branch` returns the LOW_CONFIDENCE
branch with action `clarify`, for every provider and every value of
`rerank_bypassed` (in particular never RERANK_BYPASSED or SUCCESS, even for
`provider = "mem0"` with `rerank_bypassed = true`). -/
theorem determine_branch_low_confidence_precedence
    (c : ContextCandidate) (cs : List ContextCandidate) (threshold : ℚ)
    (rerank_bypassed : Bool) (provider : String)
    (h : c.confidence < threshold) :
    (determine_branch (c :: cs) threshold rerank_bypassed provider).1.summary.branch =
        BranchCodes.LOW_CONFIDENCE ∧
    (determine_branch (c :: cs) threshold rerank_bypassed provider).2.branch_code =
        BranchCodes.LOW_CONFIDENCE ∧
    (determine_branch (c :: cs) threshold rerank_bypassed provider).2.action = "clarify" := by
  simp only [determine_branch, if_pos h]
  exact ⟨rfl, rfl, rfl⟩

/-- Witness for C1 at a concrete input (confidence 0.5 under threshold 0.6,
with `rerank_bypassed = true` and `provider = "mem0"`). -/
theorem determine_branch_low_confidence_precedence_witness :
    ((0.5 : ℚ) < 0.6) ∧
    ((determine_branch [{ id := "a", content := "x", source := "mem0",
                          confidence := 0.5, metadata := [] }] 0.6 true "mem0").1.summary.branch =
          BranchCodes.LOW_CONFIDENCE ∧
     (determine_branch [{ id := "a", content := "x", source := "mem0",
                          confidence := 0.5, metadata := [] }] 0.6 true "mem0").2.branch_code =
          BranchCodes.LOW_CONFIDENCE ∧
     (determine_branch [{ id := "a", content := "x", source := "mem0",
                          confidence := 0.5, metadata := [] }] 0.6 true "mem0").2.action = "clarify") :=
  ⟨by norm_num,
   determine_branch_low_confidence_precedence
     { id := "a", content := "x", source := "mem0", confidence := 0.5, metadata := [] }
     [] 0.6 true "mem0" (by norm_num)⟩

/-- C2: for every input, the `(ContextPacket, NextAction)` pair returned by
`determine_branch` — and by every `FallbackEmitter` emitter, including the
forced/validation path that can emit CHANNEL_MISMATCH — satisfies
`next_action.branch_code = context_packet.summary.branch`. -/
theorem branch_action_pairing :
    (∀ p, (FallbackEmitter.emit_empty_set p).2.branch_code =
        (FallbackEmitter.emit_empty_set p).1.summary.branch) ∧
    (∀ cs t th p, (FallbackEmitter.emit_low_confidence cs t th p).2.branch_code =
        (FallbackEmitter.emit_low_confidence cs t th p).1.summary.branch) ∧
    (∀ cs ch p, (FallbackEmitter.emit_channel_mismatch cs ch p).2.branch_code =
        (FallbackEmitter.emit_channel_mismatch cs ch p).1.summary.branch) ∧
    (∀ cs p, (FallbackEmitter.emit_rerank_bypassed cs p).2.branch_code =
        (FallbackEmitter.emit_rerank_bypassed cs p).1.summary.branch) ∧
    (∀ cs p ra, (FallbackEmitter.emit_success cs p ra).2.branch_code =
        (FallbackEmitter.emit_success cs p ra).1.summary.branch) ∧
    (∀ cs th rb p, (determine_branch cs th rb p).2.branch_code =
        (determine_branch cs th rb p).1.summary.branch) ∧
    (∀ cs fb p sk th, (force_branch_output cs fb p sk th).2.branch_code =
        (force_branch_output cs fb p sk th).1.summary.branch) :=
  ⟨pairing_empty_set, pairing_low_confidence, pairing_channel_mismatch,
   pairing_rerank_bypassed, pairing_success, pairing_determine_branch,
   pairing_force_branch_output⟩

/-- C10 (implicit): on the RERANK_BYPASSED path (non-empty candidates, top
confidence ≥ threshold, `rerank_bypassed = true`, `provider = "mem0"`), the
summary's `threshold_met` equals `top_confidence ≥ 0.6` with the fixed
constant 0.6, independent of the threshold argument; for threshold < 0.6 and
top confidence in `[threshold, 0.6)` the branch is RERANK_BYPASSED yet
`threshold_met` is false. -/
theorem rerank_bypassed_threshold_met_fixed_constant
    (c : ContextCandidate) (cs : List ContextCandidate) (threshold : ℚ)
    (h : threshold ≤ c.confidence) :
    (determine_branch (c :: cs) threshold true "mem0").1.summary.branch =
        BranchCodes.RERANK_BYPASSED ∧
    (determine_branch (c :: cs) threshold true "mem0").1.summary.threshold_met =
        decide ((0.6 : ℚ) ≤ c.confidence) ∧
    (c.confidence < 0.6 →
      (determine_branch (c :: cs) threshold true "mem0").1.summary.threshold_met = false) := by
  have hnl : ¬ (c.confidence < threshold) := not_lt.mpr h
  simp only [determine_branch, if_neg hnl]
  have hcond : (true && ("mem0" == "mem0")) = true := rfl
  rw [if_pos hcond]
  refine ⟨rfl, rfl, fun hlt => ?_⟩
  simp only [FallbackEmitter.emit_rerank_bypassed, List.head?, Option.map, Option.getD]
  exact decide_eq_false (not_le.mpr hlt)

/-- Witness for C10: threshold 0.5, top confidence 0.55 — RERANK_BYPASSED is
taken but `threshold_met` is false because 0.55 < 0.6. -/
theorem rerank_bypassed_threshold_met_fixed_constant_witness :
    ((0.5 : ℚ) ≤ 0.55) ∧
    ((determine_branch [{ id := "a", content := "x", source := "mem0",
                          confidence := 0.55, metadata := [] }] 0.5 true "mem0").1.summary.branch =
          BranchCodes.RERANK_BYPASSED ∧
     (determine_branch [{ id := "a", content := "x", source := "mem0",
                          confidence := 0.55, metadata := [] }] 0.5 true "mem0").1.summary.threshold_met =
          decide ((0.6 : ℚ) ≤ (0.55 : ℚ)) ∧
     ((0.55 : ℚ) < 0.6 →
      (determine_branch [{ id := "a", content := "x", source := "mem0",
                            confidence := 0.55, metadata := [] }] 0.5 true "mem0").1.summary.threshold_met =
          false)) :=
  ⟨by norm_num,
   rerank_bypassed_threshold_met_fixed_constant
     { id := "a", content := "x", source := "mem0", confidence := 0.55, metadata := [] }
     [] 0.5 (by norm_num)⟩

/-! ### Router helper lemmas -/

lemma not_eligible_of_disabled {p : String} {enabled : List String}
    (st : List (String × String)) (h : enabled.contains p = false) :
    is_provider_eligible p enabled st = false := by
  unfold is_provider_eligible
  rw [h, Bool.false_and]

lemma not_eligible_of_unavailable {p : String} (enabled : List String)
    {st : List (String × String)}
    (h : dget st p = some ProviderStatus.UNAVAILABLE) :
    is_provider_eligible p enabled st = false := by
  unfold is_provider_eligible
  rw [h, Option.getD_some]
  have hc : ([ProviderStatus.AVAILABLE, ProviderStatus.DEGRADED].contains
      ProviderStatus.UNAVAILABLE) = false := by decide
  rw [hc, Bool.and_false]

lemma select_route_fallback_eligible (avail : List String)
    (st : List (String × String)) :
    (select_route_fallback avail st).1 = "none" ∨
      is_provider_eligible (select_route_fallback avail st).1 avail st = true := by
  unfold select_route_fallback
  split
  next q hq => exact Or.inr (by simpa using List.find?_some hq)
  next => exact Or.inl rfl

lemma select_route_eligible (mode : Mode) (avail : List String)
    (st : List (String × String)) :
    (select_route mode avail st).1 = "none" ∨
      is_provider_eligible (select_route mode avail st).1 avail st = true := by
  cases mode <;> (unfold select_route; dsimp only)
  case fast =>
    split
    · exact Or.inl rfl
    · split
      next q hq =>
        refine Or.inr ?_
        have h := List.find?_some hq
        simp only [Bool.and_eq_true] at h
        exact h.1.2
      next => exact select_route_fallback_eligible avail st
  case accurate =>
    split
    · exact Or.inl rfl
    · split
      next q hq =>
        refine Or.inr ?_
        have h := List.find?_some hq
        simp only [Bool.and_eq_true] at h
        exact h.1
      next => exact select_route_fallback_eligible avail st
  case conversation =>
    split
    · exact Or.inl rfl
    · split_ifs with h1 h2
      · simp only [Bool.and_eq_true] at h1
        exact Or.inr h1.1.2
      · simp only [Bool.and_eq_true] at h2
        exact Or.inr h2.1.2
      · exact select_route_fallback_eligible avail st

lemma select_route_fallback_skip (avail : List String)
    (st : List (String × String)) :
    (select_route_fallback avail st).2.skip_external_rerank =
      ((select_route_fallback avail st).1 == "mem0") := by
  unfold select_route_fallback
  split
  next q hq => rfl
  next => rfl

lemma select_route_skip (mode : Mode) (avail : List String)
    (st : List (String × String)) :
    (select_route mode avail st).2.skip_external_rerank =
      ((select_route mode avail st).1 == "mem0") := by
  cases mode <;> (unfold select_route; dsimp only)
  case fast =>
    split
    · rfl
    · split
      next q hq => rfl
      next => exact select_route_fallback_skip avail st
  case accurate =>
    split
    · rfl
    · split
      next q hq => rfl
      next => exact select_route_fallback_skip avail st
  case conversation =>
    split
    · rfl
    · split_ifs with h1 h2
      · rfl
      · rfl
      · exact select_route_fallback_skip avail st

lemma route_retrieval_fallthrough (request : RetrievalRequest)
    (provider_status : List (String × String))
    (feature_flags : List (String × Bool)) (p : String)
    (hov : request.provider_override = some p)
    (hgate : (!(p == "") &&
        is_provider_eligible p (check_feature_flags feature_flags)
          (normalized_provider_status (check_feature_flags feature_flags) provider_status) &&
        ((dget (normalized_provider_status (check_feature_flags feature_flags)
            provider_status) p).getD ProviderStatus.AVAILABLE ==
          ProviderStatus.AVAILABLE)) = false) :
    route_retrieval request provider_status feature_flags =
      select_route request.mode (check_feature_flags feature_flags)
        (normalized_provider_status (check_feature_flags feature_flags) provider_status) := by
  simp only [route_retrieval, hov]
  rw [hgate]
  simp

/-! ## Claim theorems for the retrieval router -/

/-- C4 (amended): for a request with `provider_override = p` (p not the
sentinel "none"): if p is disabled by feature flag or its normalized status is
"unavailable", `route_retrieval` never selects p; and whenever p is disabled,
unavailable, or degraded, the override is not honored — the result is exactly
normal mode-based selection (which may itself select a degraded p through the
degraded-fallback rule). -/
theorem provider_override_gating_amended
    (request : RetrievalRequest) (provider_status : List (String × String))
    (feature_flags : List (String × Bool)) (p : String)
    (hov : request.provider_override = some p) (hp : p ≠ "none") :
    (((check_feature_flags feature_flags).contains p = false ∨
      dget (normalized_provider_status (check_feature_flags feature_flags)
          provider_status) p = some ProviderStatus.UNAVAILABLE) →
      (route_retrieval request provider_status feature_flags).1 ≠ p) ∧
    (((check_feature_flags feature_flags).contains p = false ∨
      dget (normalized_provider_status (check_feature_flags feature_flags)
          provider_status) p = some ProviderStatus.UNAVAILABLE ∨
      dget (normalized_provider_status (check_feature_flags feature_flags)
          provider_status) p = some ProviderStatus.DEGRADED) →
      route_retrieval request provider_status feature_flags =
        select_route request.mode (check_feature_flags feature_flags)
          (normalized_provider_status (check_feature_flags feature_flags)
            provider_status)) := by
  constructor
  · intro h
    have helig : is_provider_eligible p (check_feature_flags feature_flags)
        (normalized_provider_status (check_feature_flags feature_flags)
          provider_status) = false :=
      h.elim (not_eligible_of_disabled _) (not_eligible_of_unavailable _)
    have hfall := route_retrieval_fallthrough request provider_status feature_flags p hov
      (by rw [helig]; simp)
    rw [hfall]
    rcases select_route_eligible request.mode (check_feature_flags feature_flags)
        (normalized_provider_status (check_feature_flags feature_flags)
          provider_status) with hnone | helig2
    · intro hq
      rw [hq] at hnone
      exact hp hnone
    · intro hq
      rw [hq, helig] at helig2
      exact Bool.false_ne_true helig2
  · intro h
    rcases h with hdis | hunav | hdeg
    · exact route_retrieval_fallthrough request provider_status feature_flags p hov
        (by rw [not_eligible_of_disabled _ hdis]; simp)
    · exact route_retrieval_fallthrough request provider_status feature_flags p hov
        (by rw [not_eligible_of_unavailable _ hunav]; simp)
    · refine route_retrieval_fallthrough request provider_status feature_flags p hov ?_
      rw [hdeg, Option.getD_some]
      have : (ProviderStatus.DEGRADED == ProviderStatus.AVAILABLE) = false := by decide
      rw [this, Bool.and_false]

/-- Witness for the amended C4: override "supabase" with the supabase feature
flag disabled — the request never selects supabase. -/
theorem provider_override_gating_amended_witness :
    (route_retrieval { query := "q", provider_override := some "supabase" }
      [] [("supabase_enabled", false)]).1 ≠ "supabase" :=
  (provider_override_gating_amended
      { query := "q", provider_override := some "supabase" }
      [] [("supabase_enabled", false)] "supabase" rfl (by decide)).1
    (Or.inl (by decide))

/-- Counterexample for C4 as stated: with only supabase enabled and its status
"degraded", a request with `provider_override = "supabase"` still ends up with
provider "supabase" selected (through the degraded fallback of normal
selection), so a degraded override target can be selected by
`route_retrieval`. -/
theorem provider_override_gating_counterexample :
    dget (normalized_provider_status
        (check_feature_flags [("mem0_enabled", false)])
        [("supabase", "degraded")]) "supabase" = some ProviderStatus.DEGRADED ∧
    (route_retrieval
        { query := "q", mode := .conversation, top_k := 5, threshold := 0.6,
          provider_override := some "supabase" }
        [("supabase", "degraded")] [("mem0_enabled", false)]).1 = "supabase" := by
  constructor
  · rfl
  · rfl

/-- C5: on every return path, `route_retrieval` returns `(p, options)` with
`options.skip_external_rerank = (p == "mem0")`; in particular when no provider
is selected the result is `("none", {skip_external_rerank: false})`. -/
theorem route_retrieval_skip_policy (request : RetrievalRequest)
    (provider_status : List (String × String))
    (feature_flags : List (String × Bool)) :
    ((route_retrieval request provider_status feature_flags).2.skip_external_rerank =
      ((route_retrieval request provider_status feature_flags).1 == "mem0")) ∧
    ((route_retrieval request provider_status feature_flags).1 = "none" →
      (route_retrieval request provider_status feature_flags).2 =
        ⟨false⟩) := by
  have hmain : (route_retrieval request provider_status feature_flags).2.skip_external_rerank =
      ((route_retrieval request provider_status feature_flags).1 == "mem0") := by
    simp only [route_retrieval]
    cases hov : request.provider_override with
    | none => exact select_route_skip _ _ _
    | some ov =>
      dsimp only
      split
      · rfl
      · exact select_route_skip _ _ _
  refine ⟨hmain, fun hnone => ?_⟩
  have : (route_retrieval request provider_status feature_flags).2.skip_external_rerank =
      false := by
    rw [hmain, hnone]
    decide
  cases h2 : (route_retrieval request provider_status feature_flags).2
  rw [h2] at this
  simpa using this

/-- Witness for C5 at a concrete input (defaults, no status, no flags). -/
theorem route_retrieval_skip_policy_witness :
    ((route_retrieval { query := "q" } [] []).2.skip_external_rerank =
      ((route_retrieval { query := "q" } [] []).1 == "mem0")) ∧
    ((route_retrieval { query := "q" } [] []).1 = "none" →
      (route_retrieval { query := "q" } [] []).2 = ⟨false⟩) :=
  route_retrieval_skip_policy { query := "q" } [] []

/-! ## Claim theorems for the schema manager -/

/-- C3: given applied records (and a successful scan yielding `expected`),
`validate_schema_integrity` raises SchemaError with code SCHEMA_DRIFT iff
`detect_drift` yields at least one "modified" or "unexpected" item; when every
drift item is "missing" (pending only), it returns normally. -/
theorem validate_schema_integrity_drift_iff (expected : List MigrationInfo)
    (applied : List MigrationRecord) :
    ((∃ err, validate_schema_integrity expected applied = Except.error err ∧
        err.code = "SCHEMA_DRIFT") ↔
      ∃ i ∈ detect_drift expected applied,
        i.drift_type = DriftType.modified ∨ i.drift_type = DriftType.unexpected) ∧
    ((∀ i ∈ detect_drift expected applied, i.drift_type = DriftType.missing) →
      validate_schema_integrity expected applied = Except.ok ()) := by
  by_cases hc : (detect_drift expected applied).filter (fun i =>
      i.drift_type == DriftType.modified || i.drift_type == DriftType.unexpected) = []
  · have hval : validate_schema_integrity expected applied = Except.ok () := by
      simp only [validate_schema_integrity]
      rw [hc]
      rfl
    have hnone : ¬ ∃ i ∈ detect_drift expected applied,
        i.drift_type = DriftType.modified ∨ i.drift_type = DriftType.unexpected := by
      rintro ⟨i, hi, hty⟩
      have hni := List.filter_eq_nil_iff.mp hc i hi
      rcases hty with h | h <;> simp [h] at hni
    refine ⟨⟨fun ⟨err, herr, _⟩ => ?_, fun h => absurd h hnone⟩, fun _ => hval⟩
    rw [hval] at herr
    cases herr
  · have hne : ((detect_drift expected applied).filter (fun i =>
        i.drift_type == DriftType.modified ||
          i.drift_type == DriftType.unexpected)).isEmpty = false := by
      cases hE : ((detect_drift expected applied).filter (fun i =>
          i.drift_type == DriftType.modified ||
            i.drift_type == DriftType.unexpected)).isEmpty
      · rfl
      · exact absurd (List.isEmpty_iff.mp hE) hc
    have hval : ∃ err, validate_schema_integrity expected applied = Except.error err ∧
        err.code = "SCHEMA_DRIFT" := by
      simp only [validate_schema_integrity]
      rw [hne]
      exact ⟨_, rfl, rfl⟩
    obtain ⟨i, hi⟩ := List.exists_mem_of_ne_nil _ hc
    have hmem := List.mem_filter.mp hi
    have hty : i.drift_type = DriftType.modified ∨
        i.drift_type = DriftType.unexpected := by
      have h2 := hmem.2
      simp only [Bool.or_eq_true, beq_iff_eq] at h2
      exact h2
    refine ⟨⟨fun _ => ⟨i, hmem.1, hty⟩, fun _ => hval⟩, fun hall => ?_⟩
    rcases hty with h | h <;> rw [hall i hmem.1] at h <;> cases h

/-- Witness for C3 at a concrete input (one pending migration, nothing
applied: missing-only drift, no SCHEMA_DRIFT error). -/
theorem validate_schema_integrity_drift_iff_witness :
    ((∃ err, validate_schema_integrity
        [{ version := 1, filename := "001_a.sql", checksum := "c1" }] [] =
          Except.error err ∧ err.code = "SCHEMA_DRIFT") ↔
      ∃ i ∈ detect_drift [{ version := 1, filename := "001_a.sql", checksum := "c1" }] [],
        i.drift_type = DriftType.modified ∨ i.drift_type = DriftType.unexpected) ∧
    ((∀ i ∈ detect_drift [{ version := 1, filename := "001_a.sql", checksum := "c1" }] [],
        i.drift_type = DriftType.missing) →
      validate_schema_integrity
        [{ version := 1, filename := "001_a.sql", checksum := "c1" }] [] =
          Except.ok ()) :=
  validate_schema_integrity_drift_iff
    [{ version := 1, filename := "001_a.sql", checksum := "c1" }] []

/-! ### Version-dict lemmas for `detect_drift` under unique versions -/

lemma vget_append {α : Type} (a b : List (ℕ × α)) (k : ℕ) :
    vget (a ++ b) k = match vget a k with
      | some v => some v
      | none => vget b k := by
  induction a with
  | nil => rfl
  | cons kv rest ih =>
    by_cases h : kv.1 == k <;> simp [vget, h, ih]

lemma vset_of_vget_none {α : Type} (d : List (ℕ × α)) (k : ℕ) (v : α)
    (h : vget d k = none) : vset d k v = d ++ [(k, v)] := by
  induction d with
  | nil => rfl
  | cons kv rest ih =>
    by_cases hk : kv.1 == k
    · rw [vget, if_pos hk] at h
      cases h
    · rw [vget, if_neg hk] at h
      rw [vset, if_neg hk, ih h]
      rfl

lemma toVersionDict_aux {α : Type} (key : α → ℕ) (l : List α)
    (acc : List (ℕ × α)) (hd : ∀ x ∈ l, vget acc (key x) = none)
    (hn : (l.map key).Nodup) :
    l.foldl (fun d x => vset d (key x) x) acc =
      acc ++ l.map (fun x => (key x, x)) := by
  induction l generalizing acc with
  | nil => simp
  | cons x rest ih =>
    have hx : vget acc (key x) = none := hd x (List.mem_cons_self x rest)
    rw [List.map_cons, List.nodup_cons] at hn
    rw [List.foldl_cons, vset_of_vget_none _ _ _ hx,
      ih (acc ++ [(key x, x)]) ?_ hn.2]
    · simp
    · intro y hy
      rw [vget_append]
      rw [hd y (List.mem_cons_of_mem x hy)]
      have hne : (key x == key y) = false := by
        simp only [beq_eq_false_iff_ne, ne_eq]
        intro hxy
        apply hn.1
        rw [hxy]
        exact List.mem_map_of_mem key hy
      simp [vget, hne]

lemma toVersionDict_eq_map {α : Type} (key : α → ℕ) (l : List α)
    (hn : (l.map key).Nodup) :
    toVersionDict key l = l.map (fun x => (key x, x)) := by
  have := toVersionDict_aux key l [] (fun x _ => rfl) hn
  simpa [toVersionDict] using this

lemma vget_map_pair {α : Type} (key : α → ℕ) (l : List α) (v : ℕ) :
    vget (l.map (fun x => (key x, x))) v = l.find? (fun x => key x == v) := by
  induction l with
  | nil => rfl
  | cons x rest ih =>
    by_cases h : key x == v <;> simp [vget, List.find?_cons, h, ih]

lemma vget_map_pair_none {α : Type} (key : α → ℕ) (l : List α) (v : ℕ)
    (h : ∀ x ∈ l, key x ≠ v) :
    vget (l.map (fun x => (key x, x))) v = none := by
  rw [vget_map_pair]
  exact List.find?_eq_none.mpr (fun x hx => by simpa using h x hx)

lemma eq_of_nodup_key {α : Type} (key : α → ℕ) {l : List α}
    (hn : (l.map key).Nodup) {x y : α} (hx : x ∈ l) (hy : y ∈ l)
    (h : key x = key y) : x = y := by
  induction l with
  | nil => cases hx
  | cons z rest ih =>
    rw [List.map_cons, List.nodup_cons] at hn
    rcases List.mem_cons.mp hx with rfl | hx' <;>
      rcases List.mem_cons.mp hy with rfl | hy'
    · rfl
    · exfalso
      apply hn.1
      rw [h]
      exact List.mem_map_of_mem key hy'
    · exfalso
      apply hn.1
      rw [← h]
      exact List.mem_map_of_mem key hx'
    · exact ih hn.2 hx' hy'

lemma vget_map_pair_some {α : Type} (key : α → ℕ) {l : List α}
    (hn : (l.map key).Nodup) {x : α} (hx : x ∈ l) {v : ℕ} (hkey : key x = v) :
    vget (l.map (fun y => (key y, y))) v = some x := by
  rw [vget_map_pair]
  cases hf : l.find? (fun y => key y == v) with
  | none =>
    have := List.find?_eq_none.mp hf x hx
    simp [hkey] at this
  | some y =>
    have hmem := List.mem_of_find?_eq_some hf
    have hp := List.find?_some hf
    simp only [beq_iff_eq] at hp
    rw [eq_of_nodup_key key hn hmem hx (by rw [hp, hkey])]

lemma countP_filterMap_version {α : Type} (f : α → Option DriftItem)
    (key : α → ℕ) (hf : ∀ x b, f x = some b → b.version = key x)
    (l : List α) (v : ℕ) :
    (l.filterMap f).countP (fun b => b.version == v) =
      l.countP (fun x => (key x == v) && (f x).isSome) := by
  induction l with
  | nil => rfl
  | cons x rest ih =>
    cases hfx : f x with
    | none =>
      rw [List.filterMap_cons, hfx, List.countP_cons, ih]
      simp [hfx]
    | some b =>
      have hv := hf x b hfx
      rw [List.filterMap_cons, hfx, List.countP_cons, List.countP_cons, ih]
      simp [hfx, hv]

lemma countP_key_of_not_mem {α : Type} (key : α → ℕ) (l : List α) (v : ℕ)
    (h : ∀ x ∈ l, key x ≠ v) (c : α → Bool) :
    l.countP (fun y => (key y == v) && c y) = 0 := by
  refine List.countP_eq_zero.mpr (fun x hx => ?_)
  simp [h x hx]

lemma countP_key_of_mem {α : Type} (key : α → ℕ) {l : List α}
    (hn : (l.map key).Nodup) {x : α} (hx : x ∈ l) {v : ℕ} (hkey : key x = v)
    (c : α → Bool) :
    l.countP (fun y => (key y == v) && c y) = if c x then 1 else 0 := by
  induction l with
  | nil => cases hx
  | cons z rest ih =>
    rw [List.map_cons, List.nodup_cons] at hn
    rw [List.countP_cons]
    rcases List.mem_cons.mp hx with rfl | hx'
    · have hz : rest.countP (fun y => (key y == v) && c y) = 0 := by
        refine countP_key_of_not_mem key rest v (fun y hy hvy => hn.1 ?_) c
        rw [hkey, ← hvy]
        exact List.mem_map_of_mem key hy
      rw [hz, hkey]
      simp
    · have hzv : (key z == v) = false := by
        simp only [beq_eq_false_iff_ne, ne_eq]
        intro hzv
        apply hn.1
        rw [hzv, ← hkey]
        exact List.mem_map_of_mem key hx'
      rw [ih hn.2 hx']
      simp [hzv]

/-! ### `detect_drift` inversion and normalization lemmas -/

lemma driftModifiedFn_inv {A : List (ℕ × MigrationRecord)} {e : MigrationInfo}
    {b : DriftItem} (h : driftModifiedFn A e = some b) :
    ∃ r, vget A e.version = some r ∧ e.checksum ≠ r.checksum ∧
      b = modifiedItem e r := by
  unfold driftModifiedFn at h
  split at h
  next r hr =>
    split at h
    next hc =>
      cases h
      exact ⟨r, hr, hc, rfl⟩
    next hc => cases h
  next => cases h

lemma driftUnexpectedFn_inv {E : List (ℕ × MigrationInfo)} {r : MigrationRecord}
    {b : DriftItem} (h : driftUnexpectedFn E r = some b) :
    vget E r.version = none ∧ b = unexpectedItem r := by
  unfold driftUnexpectedFn at h
  split at h
  next e he => cases h
  next he =>
    cases h
    exact ⟨he, rfl⟩

lemma driftMissingFn_inv {A : List (ℕ × MigrationRecord)} {e : MigrationInfo}
    {b : DriftItem} (h : driftMissingFn A e = some b) :
    vget A e.version = none ∧ b = missingItem e := by
  unfold driftMissingFn at h
  split at h
  next r hr => cases h
  next hr =>
    cases h
    exact ⟨hr, rfl⟩

lemma driftModifiedFn_version (A : List (ℕ × MigrationRecord)) :
    ∀ (e : MigrationInfo) (b : DriftItem),
      driftModifiedFn A e = some b → b.version = e.version := by
  intro e b h
  obtain ⟨r, _, _, rfl⟩ := driftModifiedFn_inv h
  rfl

lemma driftUnexpectedFn_version (E : List (ℕ × MigrationInfo)) :
    ∀ (r : MigrationRecord) (b : DriftItem),
      driftUnexpectedFn E r = some b → b.version = r.version := by
  intro r b h
  obtain ⟨-, rfl⟩ := driftUnexpectedFn_inv h
  rfl

lemma driftMissingFn_version (A : List (ℕ × MigrationRecord)) :
    ∀ (e : MigrationInfo) (b : DriftItem),
      driftMissingFn A e = some b → b.version = e.version := by
  intro e b h
  obtain ⟨-, rfl⟩ := driftMissingFn_inv h
  rfl

lemma detect_drift_eq_of_nodup (expected : List MigrationInfo)
    (applied : List MigrationRecord)
    (hne : (expected.map (·.version)).Nodup)
    (hna : (applied.map (·.version)).Nodup) :
    detect_drift expected applied =
      expected.filterMap
        (driftModifiedFn (applied.map (fun r => (r.version, r)))) ++
      applied.filterMap
        (driftUnexpectedFn (expected.map (fun e => (e.version, e)))) ++
      expected.filterMap
        (driftMissingFn (applied.map (fun r => (r.version, r)))) := by
  have hA := toVersionDict_eq_map (·.version) applied hna
  have hE := toVersionDict_eq_map (·.version) expected hne
  simp only [detect_drift, hA, hE, List.filterMap_map]
  rfl

lemma driftModifiedFn_of_none {A : List (ℕ × MigrationRecord)}
    {e : MigrationInfo} (h : vget A e.version = none) :
    driftModifiedFn A e = none := by
  unfold driftModifiedFn
  rw [h]

lemma driftModifiedFn_of_diff {A : List (ℕ × MigrationRecord)}
    {e : MigrationInfo} {r : MigrationRecord} (hv : vget A e.version = some r)
    (hc : e.checksum ≠ r.checksum) :
    driftModifiedFn A e = some (modifiedItem e r) := by
  unfold driftModifiedFn
  rw [hv]
  simp [hc]

lemma driftModifiedFn_of_eq {A : List (ℕ × MigrationRecord)}
    {e : MigrationInfo} {r : MigrationRecord} (hv : vget A e.version = some r)
    (hc : e.checksum = r.checksum) :
    driftModifiedFn A e = none := by
  unfold driftModifiedFn
  rw [hv]
  simp [hc]

lemma driftUnexpectedFn_of_none {E : List (ℕ × MigrationInfo)}
    {r : MigrationRecord} (h : vget E r.version = none) :
    driftUnexpectedFn E r = some (unexpectedItem r) := by
  unfold driftUnexpectedFn
  rw [h]

lemma driftUnexpectedFn_of_some {E : List (ℕ × MigrationInfo)}
    {r : MigrationRecord} {e : MigrationInfo} (h : vget E r.version = some e) :
    driftUnexpectedFn E r = none := by
  unfold driftUnexpectedFn
  rw [h]

lemma driftMissingFn_of_none {A : List (ℕ × MigrationRecord)}
    {e : MigrationInfo} (h : vget A e.version = none) :
    driftMissingFn A e = some (missingItem e) := by
  unfold driftMissingFn
  rw [h]

lemma driftMissingFn_of_some {A : List (ℕ × MigrationRecord)}
    {e : MigrationInfo} {r : MigrationRecord} (h : vget A e.version = some r) :
    driftMissingFn A e = none := by
  unfold driftMissingFn
  rw [h]

lemma drift_counts_pending (expected : List MigrationInfo)
    (applied : List MigrationRecord)
    (hne : (expected.map (·.version)).Nodup)
    (hna : (applied.map (·.version)).Nodup)
    {v : ℕ} {e : MigrationInfo} (he : e ∈ expected) (hev : e.version = v)
    (ha : ∀ r ∈ applied, r.version ≠ v) :
    (detect_drift expected applied).countP (fun i => i.version == v) = 1 ∧
    ∀ i ∈ detect_drift expected applied, i.version = v →
      i.drift_type = DriftType.missing := by
  have hA : vget (applied.map (fun r => (r.version, r))) v = none :=
    vget_map_pair_none _ _ _ ha
  rw [detect_drift_eq_of_nodup expected applied hne hna]
  constructor
  · rw [List.countP_append, List.countP_append,
      countP_filterMap_version _ (·.version) (driftModifiedFn_version _),
      countP_filterMap_version _ (·.version) (driftUnexpectedFn_version _),
      countP_filterMap_version _ (·.version) (driftMissingFn_version _),
      countP_key_of_mem (·.version) hne he hev
        (fun x => (driftModifiedFn (applied.map (fun r => (r.version, r))) x).isSome),
      countP_key_of_not_mem (·.version) applied v ha,
      countP_key_of_mem (·.version) hne he hev
        (fun x => (driftMissingFn (applied.map (fun r => (r.version, r))) x).isSome)]
    have h1 : driftModifiedFn (applied.map (fun r => (r.version, r))) e = none :=
      driftModifiedFn_of_none (by rw [hev]; exact hA)
    have h3 : driftMissingFn (applied.map (fun r => (r.version, r))) e =
        some (missingItem e) :=
      driftMissingFn_of_none (by rw [hev]; exact hA)
    simp [h1, h3]
  · intro i hi hiv
    rcases List.mem_append.mp hi with hi' | hMi
    · rcases List.mem_append.mp hi' with hMo | hUn
      · obtain ⟨e', he', hsome⟩ := List.mem_filterMap.mp hMo
        obtain ⟨r, hvr, -, rfl⟩ := driftModifiedFn_inv hsome
        exfalso
        have hv' : e'.version = v := hiv
        rw [hv', hA] at hvr
        cases hvr
      · obtain ⟨r', hr', hsome⟩ := List.mem_filterMap.mp hUn
        obtain ⟨-, rfl⟩ := driftUnexpectedFn_inv hsome
        exact absurd hiv (ha r' hr')
    · obtain ⟨e', he', hsome⟩ := List.mem_filterMap.mp hMi
      obtain ⟨-, rfl⟩ := driftMissingFn_inv hsome
      rfl

lemma drift_counts_unexpected (expected : List MigrationInfo)
    (applied : List MigrationRecord)
    (hne : (expected.map (·.version)).Nodup)
    (hna : (applied.map (·.version)).Nodup)
    {v : ℕ} {r : MigrationRecord} (hr : r ∈ applied) (hrv : r.version = v)
    (hexp : ∀ e ∈ expected, e.version ≠ v) :
    (detect_drift expected applied).countP (fun i => i.version == v) = 1 ∧
    ∀ i ∈ detect_drift expected applied, i.version = v →
      i.drift_type = DriftType.unexpected := by
  have hE : vget (expected.map (fun e => (e.version, e))) v = none :=
    vget_map_pair_none _ _ _ hexp
  rw [detect_drift_eq_of_nodup expected applied hne hna]
  constructor
  · rw [List.countP_append, List.countP_append,
      countP_filterMap_version _ (·.version) (driftModifiedFn_version _),
      countP_filterMap_version _ (·.version) (driftUnexpectedFn_version _),
      countP_filterMap_version _ (·.version) (driftMissingFn_version _),
      countP_key_of_not_mem (·.version) expected v hexp
        (fun x => (driftModifiedFn (applied.map (fun r => (r.version, r))) x).isSome),
      countP_key_of_mem (·.version) hna hr hrv
        (fun x => (driftUnexpectedFn (expected.map (fun e => (e.version, e))) x).isSome),
      countP_key_of_not_mem (·.version) expected v hexp
        (fun x => (driftMissingFn (applied.map (fun r => (r.version, r))) x).isSome)]
    have h2 : driftUnexpectedFn (expected.map (fun e => (e.version, e))) r =
        some (unexpectedItem r) :=
      driftUnexpectedFn_of_none (by rw [hrv]; exact hE)
    simp [h2]
  · intro i hi hiv
    rcases List.mem_append.mp hi with hi' | hMi
    · rcases List.mem_append.mp hi' with hMo | hUn
      · obtain ⟨e', he', hsome⟩ := List.mem_filterMap.mp hMo
        obtain ⟨r', hvr, -, rfl⟩ := driftModifiedFn_inv hsome
        exact absurd hiv (hexp e' he')
      · obtain ⟨r', hr', hsome⟩ := List.mem_filterMap.mp hUn
        obtain ⟨-, rfl⟩ := driftUnexpectedFn_inv hsome
        rfl
    · obtain ⟨e', he', hsome⟩ := List.mem_filterMap.mp hMi
      obtain ⟨-, rfl⟩ := driftMissingFn_inv hsome
      exact absurd hiv (hexp e' he')

lemma drift_counts_modified (expected : List MigrationInfo)
    (applied : List MigrationRecord)
    (hne : (expected.map (·.version)).Nodup)
    (hna : (applied.map (·.version)).Nodup)
    {v : ℕ} {e : MigrationInfo} {r : MigrationRecord}
    (he : e ∈ expected) (hev : e.version = v) (hr : r ∈ applied)
    (hrv : r.version = v) (hc : e.checksum ≠ r.checksum) :
    (detect_drift expected applied).countP (fun i => i.version == v) = 1 ∧
    ∀ i ∈ detect_drift expected applied, i.version = v →
      i.drift_type = DriftType.modified := by
  have hA : vget (applied.map (fun x => (x.version, x))) v = some r :=
    vget_map_pair_some (·.version) hna hr hrv
  have hE : vget (expected.map (fun x => (x.version, x))) v = some e :=
    vget_map_pair_some (·.version) hne he hev
  rw [detect_drift_eq_of_nodup expected applied hne hna]
  constructor
  · rw [List.countP_append, List.countP_append,
      countP_filterMap_version _ (·.version) (driftModifiedFn_version _),
      countP_filterMap_version _ (·.version) (driftUnexpectedFn_version _),
      countP_filterMap_version _ (·.version) (driftMissingFn_version _),
      countP_key_of_mem (·.version) hne he hev
        (fun x => (driftModifiedFn (applied.map (fun r => (r.version, r))) x).isSome),
      countP_key_of_mem (·.version) hna hr hrv
        (fun x => (driftUnexpectedFn (expected.map (fun e => (e.version, e))) x).isSome),
      countP_key_of_mem (·.version) hne he hev
        (fun x => (driftMissingFn (applied.map (fun r => (r.version, r))) x).isSome)]
    have h1 : driftModifiedFn (applied.map (fun x => (x.version, x))) e =
        some (modifiedItem e r) :=
      driftModifiedFn_of_diff (by rw [hev]; exact hA) hc
    have h2 : driftUnexpectedFn (expected.map (fun x => (x.version, x))) r = none :=
      driftUnexpectedFn_of_some (by rw [hrv]; exact hE)
    have h3 : driftMissingFn (applied.map (fun x => (x.version, x))) e = none :=
      driftMissingFn_of_some (by rw [hev]; exact hA)
    simp [h1, h2, h3]
  · intro i hi hiv
    rcases List.mem_append.mp hi with hi' | hMi
    · rcases List.mem_append.mp hi' with hMo | hUn
      · obtain ⟨e', he', hsome⟩ := List.mem_filterMap.mp hMo
        obtain ⟨r', hvr, -, rfl⟩ := driftModifiedFn_inv hsome
        rfl
      · obtain ⟨r', hr', hsome⟩ := List.mem_filterMap.mp hUn
        obtain ⟨hvE, rfl⟩ := driftUnexpectedFn_inv hsome
        exfalso
        have hv' : r'.version = v := hiv
        rw [hv', hE] at hvE
        cases hvE
    · obtain ⟨e', he', hsome⟩ := List.mem_filterMap.mp hMi
      obtain ⟨hvA, rfl⟩ := driftMissingFn_inv hsome
      exfalso
      have hv' : e'.version = v := hiv
      rw [hv', hA] at hvA
      cases hvA

lemma drift_counts_clean (expected : List MigrationInfo)
    (applied : List MigrationRecord)
    (hne : (expected.map (·.version)).Nodup)
    (hna : (applied.map (·.version)).Nodup)
    {v : ℕ} {e : MigrationInfo} {r : MigrationRecord}
    (he : e ∈ expected) (hev : e.version = v) (hr : r ∈ applied)
    (hrv : r.version = v) (hc : e.checksum = r.checksum) :
    (detect_drift expected applied).countP (fun i => i.version == v) = 0 := by
  have hA : vget (applied.map (fun x => (x.version, x))) v = some r :=
    vget_map_pair_some (·.version) hna hr hrv
  have hE : vget (expected.map (fun x => (x.version, x))) v = some e :=
    vget_map_pair_some (·.version) hne he hev
  rw [detect_drift_eq_of_nodup expected applied hne hna]
  rw [List.countP_append, List.countP_append,
    countP_filterMap_version _ (·.version) (driftModifiedFn_version _),
    countP_filterMap_version _ (·.version) (driftUnexpectedFn_version _),
    countP_filterMap_version _ (·.version) (driftMissingFn_version _),
    countP_key_of_mem (·.version) hne he hev
      (fun x => (driftModifiedFn (applied.map (fun r => (r.version, r))) x).isSome),
    countP_key_of_mem (·.version) hna hr hrv
      (fun x => (driftUnexpectedFn (expected.map (fun e => (e.version, e))) x).isSome),
    countP_key_of_mem (·.version) hne he hev
      (fun x => (driftMissingFn (applied.map (fun r => (r.version, r))) x).isSome)]
  have h1 : driftModifiedFn (applied.map (fun x => (x.version, x))) e = none :=
    driftModifiedFn_of_eq (by rw [hev]; exact hA) hc
  have h2 : driftUnexpectedFn (expected.map (fun x => (x.version, x))) r = none :=
    driftUnexpectedFn_of_some (by rw [hrv]; exact hE)
  have h3 : driftMissingFn (applied.map (fun x => (x.version, x))) e = none :=
    driftMissingFn_of_some (by rw [hev]; exact hA)
  simp [h1, h2, h3]

lemma drift_counts_absent (expected : List MigrationInfo)
    (applied : List MigrationRecord)
    (hne : (expected.map (·.version)).Nodup)
    (hna : (applied.map (·.version)).Nodup)
    {v : ℕ} (hexp : ∀ e ∈ expected, e.version ≠ v)
    (happ : ∀ r ∈ applied, r.version ≠ v) :
    (detect_drift expected applied).countP (fun i => i.version == v) = 0 := by
  rw [detect_drift_eq_of_nodup expected applied hne hna]
  rw [List.countP_append, List.countP_append,
    countP_filterMap_version _ (·.version) (driftModifiedFn_version _),
    countP_filterMap_version _ (·.version) (driftUnexpectedFn_version _),
    countP_filterMap_version _ (·.version) (driftMissingFn_version _),
    countP_key_of_not_mem (·.version) expected v hexp
      (fun x => (driftModifiedFn (applied.map (fun r => (r.version, r))) x).isSome),
    countP_key_of_not_mem (·.version) applied v happ
      (fun x => (driftUnexpectedFn (expected.map (fun e => (e.version, e))) x).isSome),
    countP_key_of_not_mem (·.version) expected v hexp
      (fun x => (driftMissingFn (applied.map (fun r => (r.version, r))) x).isSome)]

/-- C6: for expected/applied lists with unique versions, `detect_drift` emits
exactly one "missing" item per version only in expected, exactly one
"unexpected" item per version only in applied, exactly one "modified" item per
version in both with differing checksums, no item for a version in both with
equal checksums, and never more than one drift item per version. -/
theorem detect_drift_classification (expected : List MigrationInfo)
    (applied : List MigrationRecord)
    (hne : (expected.map (·.version)).Nodup)
    (hna : (applied.map (·.version)).Nodup) (v : ℕ) :
    ((∃ e ∈ expected, e.version = v) → (∀ r ∈ applied, r.version ≠ v) →
      (detect_drift expected applied).countP (fun i => i.version == v) = 1 ∧
      ∀ i ∈ detect_drift expected applied, i.version = v →
        i.drift_type = DriftType.missing) ∧
    ((∀ e ∈ expected, e.version ≠ v) → (∃ r ∈ applied, r.version = v) →
      (detect_drift expected applied).countP (fun i => i.version == v) = 1 ∧
      ∀ i ∈ detect_drift expected applied, i.version = v →
        i.drift_type = DriftType.unexpected) ∧
    (∀ e ∈ expected, ∀ r ∈ applied, e.version = v → r.version = v →
      e.checksum ≠ r.checksum →
      (detect_drift expected applied).countP (fun i => i.version == v) = 1 ∧
      ∀ i ∈ detect_drift expected applied, i.version = v →
        i.drift_type = DriftType.modified) ∧
    (∀ e ∈ expected, ∀ r ∈ applied, e.version = v → r.version = v →
      e.checksum = r.checksum →
      (detect_drift expected applied).countP (fun i => i.version == v) = 0) ∧
    (detect_drift expected applied).countP (fun i => i.version == v) ≤ 1 := by
  refine ⟨?_, ?_, ?_, ?_, ?_⟩
  · rintro ⟨e, he, hev⟩ ha
    exact drift_counts_pending expected applied hne hna he hev ha
  · rintro hexp ⟨r, hr, hrv⟩
    exact drift_counts_unexpected expected applied hne hna hr hrv hexp
  · intro e he r hr hev hrv hc
    exact drift_counts_modified expected applied hne hna he hev hr hrv hc
  · intro e he r hr hev hrv hc
    exact drift_counts_clean expected applied hne hna he hev hr hrv hc
  · by_cases hve : ∃ e ∈ expected, e.version = v
    · obtain ⟨e, he, hev⟩ := hve
      by_cases hva : ∃ r ∈ applied, r.version = v
      · obtain ⟨r, hr, hrv⟩ := hva
        by_cases hc : e.checksum = r.checksum
        · rw [drift_counts_clean expected applied hne hna he hev hr hrv hc]
          exact Nat.zero_le 1
        · exact le_of_eq
            (drift_counts_modified expected applied hne hna he hev hr hrv hc).1
      · push_neg at hva
        exact le_of_eq (drift_counts_pending expected applied hne hna he hev hva).1
    · push_neg at hve
      by_cases hva : ∃ r ∈ applied, r.version = v
      · obtain ⟨r, hr, hrv⟩ := hva
        exact le_of_eq
          (drift_counts_unexpected expected applied hne hna hr hrv hve).1
      · push_neg at hva
        rw [drift_counts_absent expected applied hne hna hve hva]
        exact Nat.zero_le 1

/-- Witness for C6 at a concrete input: one expected migration, nothing
applied — version 1 is pending, classified as exactly one "missing" item. -/
theorem detect_drift_classification_witness :
    (detect_drift [{ version := 1, filename := "001_a.sql", checksum := "c1" }]
        []).countP (fun i => i.version == 1) = 1 ∧
    ∀ i ∈ detect_drift [{ version := 1, filename := "001_a.sql", checksum := "c1" }] [],
      i.version = 1 → i.drift_type = DriftType.missing :=
  (detect_drift_classification
      [{ version := 1, filename := "001_a.sql", checksum := "c1" }] []
      (by decide) (by decide) 1).1
    ⟨{ version := 1, filename := "001_a.sql", checksum := "c1" },
      List.mem_singleton.mpr rfl, rfl⟩
    (by intro r hr; cases hr)

/-! ### Migration runner lemmas -/

lemma apply_pending_loop_fail (f : MigrationInfo → Bool) (total : ℕ)
    (l : List MigrationInfo) (k : ℕ) (hk : k < l.length)
    (hfail : f (l.get ⟨k, hk⟩) = true)
    (hbefore : ∀ (i : ℕ) (hi : i < k), f (l.get ⟨i, lt_trans hi hk⟩) = false)
    (acc : List MigrationInfo) (tr : ExecTrace) :
    apply_pending_loop f total l acc tr =
      ({ success := false
         applied := acc ++ l.take k
         error := some ("Migration " ++ (l.get ⟨k, hk⟩).filename ++ " failed")
         pending_count := total - (acc ++ l.take k).length },
       { executed_versions :=
           tr.executed_versions ++ (l.take (k + 1)).map (·.version)
         recorded := tr.recorded ++ l.take k
         lock_released := tr.lock_released }) := by
  induction l generalizing k acc tr with
  | nil => exact absurd hk (by simp)
  | cons m rest ih =>
    cases k with
    | zero =>
      have hm : f m = true := hfail
      simp only [apply_pending_loop, hm]
      simp
    | succ k' =>
      have hm : f m = false := hbefore 0 (Nat.succ_pos k')
      have hk' : k' < rest.length := Nat.lt_of_succ_lt_succ hk
      have hfail' : f (rest.get ⟨k', hk'⟩) = true := hfail
      have hbefore' : ∀ (i : ℕ) (hi : i < k'),
          f (rest.get ⟨i, lt_trans hi hk'⟩) = false := fun i hi =>
        hbefore (i + 1) (Nat.succ_lt_succ hi)
      simp only [apply_pending_loop, hm]
      rw [if_neg Bool.false_ne_true, ih k' hk' hfail' hbefore']
      simp [List.take_succ_cons]

/-! ## Claim theorem for the migration runner -/

/-- C7: with `dry_run = false`, the lock acquired, and no critical drift, if
the forward SQL of the k-th pending migration (0-based, in version order)
raises, `apply_pending` returns (without raising) a MigrationResult with
`success = false` whose `applied` list is exactly the first k pending
migrations, each already recorded via `record_migration`; nothing is rolled
back, no later pending migration is executed (the executed versions are
exactly the first k+1), and the advisory lock is still released. -/
theorem apply_pending_partial_failure (expected : List MigrationInfo)
    (executor : Executor) (k : ℕ)
    (hlock : executor.lock_ok = true)
    (hvalid : validate_schema_integrity expected executor.applied = Except.ok ())
    (hk : k < (get_pending expected executor.applied).length)
    (hfail : executor.exec_fails
      ((get_pending expected executor.applied).get ⟨k, hk⟩) = true)
    (hbefore : ∀ (i : ℕ) (hi : i < k),
      executor.exec_fails
        ((get_pending expected executor.applied).get ⟨i, lt_trans hi hk⟩) = false) :
    ∃ result tr,
      apply_pending expected executor false = (Except.ok result, tr) ∧
      result.success = false ∧
      result.applied = (get_pending expected executor.applied).take k ∧
      result.rolled_back = [] ∧
      result.pending_count = (get_pending expected executor.applied).length - k ∧
      tr.recorded = (get_pending expected executor.applied).take k ∧
      tr.executed_versions =
        ((get_pending expected executor.applied).take (k + 1)).map (·.version) ∧
      tr.lock_released = true := by
  have hne : (get_pending expected executor.applied).isEmpty = false := by
    cases hE : (get_pending expected executor.applied).isEmpty
    · rfl
    · rw [List.isEmpty_iff.mp hE] at hk
      cases hk
  have hloop := apply_pending_loop_fail executor.exec_fails
    (get_pending expected executor.applied).length
    (get_pending expected executor.applied) k hk hfail hbefore [] {}
  have happ : apply_pending expected executor false =
      (Except.ok
        { success := false
          applied := (get_pending expected executor.applied).take k
          error := some ("Migration " ++
            ((get_pending expected executor.applied).get ⟨k, hk⟩).filename ++
            " failed")
          pending_count := (get_pending expected executor.applied).length -
            ((get_pending expected executor.applied).take k).length },
       { executed_versions :=
           ((get_pending expected executor.applied).take (k + 1)).map (·.version)
         recorded := (get_pending expected executor.applied).take k
         lock_released := true }) := by
    simp only [apply_pending, hlock, hvalid, hne, hloop]
    simp
  refine ⟨_, _, happ, rfl, rfl, rfl, ?_, rfl, rfl, rfl⟩
  rw [List.length_take, Nat.min_eq_left (le_of_lt hk)]

/-- Witness for C7: two pending migrations, the second one's forward SQL
fails — the result reports the first as applied and recorded, nothing rolled
back, only versions 1 and 2 executed, lock released. -/
theorem apply_pending_partial_failure_witness :
    ∃ result tr,
      apply_pending
        [{ version := 1, filename := "001_a.sql", checksum := "c1" },
         { version := 2, filename := "002_b.sql", checksum := "c2" }]
        { lock_ok := true, applied := [], exec_fails := fun m => m.version == 2 }
        false = (Except.ok result, tr) ∧
      result.success = false ∧
      result.applied = (get_pending
        [{ version := 1, filename := "001_a.sql", checksum := "c1" },
         { version := 2, filename := "002_b.sql", checksum := "c2" }] []).take 1 ∧
      result.rolled_back = [] ∧
      result.pending_count = (get_pending
        [{ version := 1, filename := "001_a.sql", checksum := "c1" },
         { version := 2, filename := "002_b.sql", checksum := "c2" }] []).length - 1 ∧
      tr.recorded = (get_pending
        [{ version := 1, filename := "001_a.sql", checksum := "c1" },
         { version := 2, filename := "002_b.sql", checksum := "c2" }] []).take 1 ∧
      tr.executed_versions = ((get_pending
        [{ version := 1, filename := "001_a.sql", checksum := "c1" },
         { version := 2, filename := "002_b.sql", checksum := "c2" }] []).take 2).map
          (·.version) ∧
      tr.lock_released = true :=
  apply_pending_partial_failure
    [{ version := 1, filename := "001_a.sql", checksum := "c1" },
     { version := 2, filename := "002_b.sql", checksum := "c2" }]
    { lock_ok := true, applied := [], exec_fails := fun m => m.version == 2 }
    1 rfl rfl (by decide) rfl
    (by
      intro i hi
      have h0 : i = 0 := Nat.lt_one_iff.mp hi
      subst h0
      rfl)

/-! ## Claim theorems for the voyage rerank service -/

/-- C9: with real rerank disabled and the service enabled, for at least two
candidates `rerank` returns new candidates each corresponding to an input
with unchanged id/content/source and confidence
`min 1 (conf + 0.05 × overlap)` (overlap = distinct query terms present in
the content), sorted descending by adjusted confidence and truncated to the
first top_k — the output is exactly the top_k-prefix of the stable descending
sort of the adjusted candidates; with zero or one candidate, or the service
disabled, the candidates are returned unchanged with rerank_type "none". -/
theorem voyage_rerank_spec (svc : VoyageRerankService) (query : String)
    (candidates : List ContextCandidate) (top_k : ℕ) :
    (svc.enabled = true → svc.use_real_rerank = false →
      2 ≤ candidates.length →
      ((∀ c ∈ (rerank svc query candidates top_k).1,
        ∃ c' ∈ candidates, c.id = c'.id ∧ c.content = c'.content ∧
          c.source = c'.source ∧
          c.confidence = min 1 (c'.confidence +
            ((((pySplitWs query.toLower).dedup).filter
              (fun t => (pySplitWs c'.content.toLower).contains t)).length : ℚ) *
              0.05)) ∧
       List.Pairwise (fun a b => b.confidence ≤ a.confidence)
         (rerank svc query candidates top_k).1 ∧
       (rerank svc query candidates top_k).1.length = min top_k candidates.length ∧
       (rerank svc query candidates top_k).1 =
         ((candidates.map (fun c' =>
           { c' with
              confidence := min 1 (c'.confidence +
                ((((pySplitWs query.toLower).dedup).filter
                  (fun t => (pySplitWs c'.content.toLower).contains t)).length : ℚ) *
                  0.05)
              metadata := dset c'.metadata "rerank_adjusted" "True" })).mergeSort
           (fun a b => decide (b.confidence ≤ a.confidence))).take top_k)) ∧
    ((svc.enabled = false ∨ candidates.length = 0 ∨ candidates.length = 1) →
      (rerank svc query candidates top_k).1 = candidates ∧
      dget (rerank svc query candidates top_k).2 "rerank_type" = some "none") := by
  constructor
  · intro hen hreal hlen
    have hne : candidates.isEmpty = false := by
      cases hE : candidates.isEmpty
      · rfl
      · rw [List.isEmpty_iff.mp hE] at hlen
        simp at hlen
    have hne1 : (candidates.length == 1) = false := by
      simp only [beq_eq_false_iff_ne, ne_eq]
      omega
    have hfst : (rerank svc query candidates top_k).1 =
        mock_rerank query candidates top_k := by
      simp [rerank, hen, hreal, hne, hne1]
    refine ⟨?_, ?_, ?_, ?_⟩
    · intro c hc
      rw [hfst] at hc
      simp only [mock_rerank] at hc
      obtain ⟨p, hp, rfl⟩ := List.mem_map.mp hc
      have hp2 := List.take_subset _ _ hp
      rw [List.mem_mergeSort] at hp2
      obtain ⟨c', hc', rfl⟩ := List.mem_map.mp hp2
      exact ⟨c', hc', rfl, rfl, rfl, rfl⟩
    · rw [hfst]
      simp only [mock_rerank]
      rw [List.pairwise_map]
      have hsorted := @List.sorted_mergeSort (ℚ × ContextCandidate)
        (fun a b => decide (b.1 ≤ a.1))
        (fun a b c hab hbc => by
          simp only [decide_eq_true_eq] at *
          exact le_trans hbc hab)
        (fun a b => by
          simp only [Bool.or_eq_true, decide_eq_true_eq]
          exact le_total b.1 a.1)
        (candidates.map (mock_score (pySplitWs query.toLower)))
      have htake := List.Pairwise.sublist (List.take_sublist top_k _) hsorted
      refine List.Pairwise.imp_of_mem ?_ htake
      intro p q hp hq hle
      have hp2 := List.take_subset _ _ hp
      rw [List.mem_mergeSort] at hp2
      obtain ⟨cp, hcp, rfl⟩ := List.mem_map.mp hp2
      have hq2 := List.take_subset _ _ hq
      rw [List.mem_mergeSort] at hq2
      obtain ⟨cq, hcq, rfl⟩ := List.mem_map.mp hq2
      simpa using hle
    · rw [hfst]
      simp [mock_rerank, List.length_take]
    · rw [hfst]
      simp only [mock_rerank]
      have hl : ∀ a ∈ candidates.map (mock_score (pySplitWs query.toLower)),
          ∀ b ∈ candidates.map (mock_score (pySplitWs query.toLower)),
          decide (b.1 ≤ a.1) = decide (b.2.confidence ≤ a.2.confidence) := by
        intro a ha b hb
        obtain ⟨ca, hca, rfl⟩ := List.mem_map.mp ha
        obtain ⟨cb, hcb, rfl⟩ := List.mem_map.mp hb
        rfl
      have hcomm :
          ((candidates.map (mock_score (pySplitWs query.toLower))).mergeSort
              (fun a b => decide (b.1 ≤ a.1))).map (·.2) =
            ((candidates.map (mock_score (pySplitWs query.toLower))).map
              (·.2)).mergeSort
              (fun a b => decide (b.confidence ≤ a.confidence)) :=
        List.map_mergeSort hl
      rw [List.map_take, hcomm, List.map_map]
      rfl
  · intro h
    rcases h with hen | hlen | hlen
    · constructor
      · simp [rerank, hen]
      · simp [rerank, hen, dget, dset]
    · rw [List.length_eq_zero] at hlen
      subst hlen
      constructor
      · simp [rerank]
      · simp [rerank, dget, dset]
    · obtain ⟨c, rfl⟩ := List.length_eq_one.mp hlen
      cases hen : svc.enabled
      · constructor
        · simp [rerank, hen]
        · simp [rerank, hen, dget, dset]
      · constructor
        · simp [rerank, hen]
        · simp [rerank, hen, dget, dset]

/-- Witness for C9: two two-term candidates on a two-term query (top_k 5) and
a single-candidate bypass, both through the claim theorem. -/
theorem voyage_rerank_spec_witness :
    ((rerank { enabled := true, use_real_rerank := false } "alpha beta"
        [candAlphaX, candAlphaBetaY] 5).1.length =
      min 5 ([candAlphaX, candAlphaBetaY] : List ContextCandidate).length) ∧
    ((rerank { enabled := true, use_real_rerank := false } "alpha beta"
        [candAlphaX] 5).1 = [candAlphaX] ∧
     dget (rerank { enabled := true, use_real_rerank := false } "alpha beta"
        [candAlphaX] 5).2 "rerank_type" = some "none") :=
  ⟨((voyage_rerank_spec { enabled := true, use_real_rerank := false } "alpha beta"
      [candAlphaX, candAlphaBetaY] 5).1 rfl rfl (by decide)).2.2.1,
   (voyage_rerank_spec { enabled := true, use_real_rerank := false } "alpha beta"
      [candAlphaX] 5).2 (Or.inr (Or.inr rfl))⟩

/-! ## Claim theorems for the orchestrator rerank arbitration -/

/-- Counterexample for C8 as stated: with `skip_external_rerank = false`, an
empty candidate list, and the external-rerank flag at its default (enabled),
the rerank service is not applied (candidates are returned unchanged with
rerank_type "none"), yet the assembled routing metadata has a null
`rerank_bypass_reason`. -/
theorem rerank_bypass_reason_counterexample :
    (orchestrator_rerank_step {} { query := "q" } false [] []).1 = [] ∧
    (dget (orchestrator_rerank_step {} { query := "q" } false [] []).2
      "rerank_type") = some "none" ∧
    (build_routing_metadata "supabase" Mode.conversation false
      (orchestrator_rerank_step {} { query := "q" } false [] []).2).rerank_bypass_reason =
      none := by
  refine ⟨rfl, rfl, rfl⟩

/-- C8 (amended): the orchestrator records a non-null `rerank_bypass_reason`
for the `skip_external_rerank` bypass ("mem0-default-policy") and for the
disabled-flag bypass with a non-empty candidate list
("external_rerank_disabled"); a bypass caused by an empty candidate list
records no reason (`rerank_bypass_reason` stays null). -/
theorem rerank_bypass_reason_amended (svc : VoyageRerankService)
    (request : RetrievalRequest) (skip : Bool)
    (candidates : List ContextCandidate) (flags : List (String × Bool))
    (provider : String) (mode : Mode) :
    (skip = true →
      (build_routing_metadata provider mode skip
        (orchestrator_rerank_step svc request skip candidates flags).2).rerank_bypass_reason =
        some "mem0-default-policy") ∧
    (skip = false → candidates ≠ [] →
      bget flags "external_rerank_enabled" true = false →
      (build_routing_metadata provider mode skip
        (orchestrator_rerank_step svc request skip candidates flags).2).rerank_bypass_reason =
        some "external_rerank_disabled") ∧
    (skip = false → candidates = [] →
      (build_routing_metadata provider mode skip
        (orchestrator_rerank_step svc request skip candidates flags).2).rerank_bypass_reason =
        none) := by
  refine ⟨?_, ?_, ?_⟩
  · intro hskip
    subst hskip
    simp [orchestrator_rerank_step, build_routing_metadata, dget, dset]
  · intro hskip hne hflag
    subst hskip
    have hempty : candidates.isEmpty = false := by
      cases hE : candidates.isEmpty
      · rfl
      · exact absurd (List.isEmpty_iff.mp hE) hne
    simp [orchestrator_rerank_step, build_routing_metadata, hempty, hflag,
      dget, dset]
  · intro hskip hnil
    subst hskip
    subst hnil
    simp [orchestrator_rerank_step, build_routing_metadata, dget, dset]

/-- Witness for the amended C8 at concrete inputs: the mem0 skip bypass and
the disabled-flag bypass both record their reasons. -/
theorem rerank_bypass_reason_amended_witness :
    ((build_routing_metadata "mem0" Mode.conversation true
      (orchestrator_rerank_step {} { query := "q" } true [candAlphaX] []).2).rerank_bypass_reason =
      some "mem0-default-policy") ∧
    ((build_routing_metadata "supabase" Mode.conversation false
      (orchestrator_rerank_step {} { query := "q" } false [candAlphaX]
        [("external_rerank_enabled", false)]).2).rerank_bypass_reason =
      some "external_rerank_disabled") :=
  ⟨(rerank_bypass_reason_amended {} { query := "q" } true [candAlphaX] []
      "mem0" Mode.conversation).1 rfl,
   (rerank_bypass_reason_amended {} { query := "q" } false [candAlphaX]
      [("external_rerank_enabled", false)] "supabase" Mode.conversation).2.1
     rfl (by decide) rfl⟩

end SecondBrain
